import Mathlib

/-!
Verification development for the flappy-bird NEAT evaluation loop
(`flappy_bird.py`).  The game's numeric state (positions, velocities,
fitness accumulators) is embedded over the rationals; pixel-mask
collision (`Pipe.collide`, which reads sprite bitmaps) and the sprite
dimensions (`image.get_height()`, `PIPE_TOP.get_width()`, ...) are
abstracted as parameters, since they are artifacts of the image assets.
The neural networks are abstracted as functions from the 3-value
observation to the scalar output.

Python's `for x, bird in enumerate(birds): ... birds.pop(x)` loops are
embedded with their exact in-place semantics: popping at the cursor
index shifts the following element into the removed slot, and the
cursor then moves past it, so the element immediately after a removal
is kept without being examined in that pass.
-/

namespace FlappyBird

/-- Observation fed to a controller: (bird.y, |bird.y - pipe.height|, |bird.y - pipe.bottom|). -/
def Obs : Type := ℚ × ℚ × ℚ

/-- A controller: NEAT feed-forward network abstracted as its input/output function. -/
def Net : Type := Obs → ℚ

/-- Bird object (source class `Bird`).  The `image` field (a pygame surface)
is presentation-only and omitted; its pixel height enters the model as the
parameter `Params.birdH`. -/
structure Bird where
  x : ℚ
  y : ℚ
  tilt : ℚ
  tick_count : ℕ
  velocity : ℚ
  height : ℚ
  image_count : ℕ
deriving DecidableEq, Repr

/-- Bird constant MAX_ROTATION. -/
def Bird.MAX_ROTATION : ℚ := 25

/-- Bird constant ROTATION_VELOCITY. -/
def Bird.ROTATION_VELOCITY : ℚ := 20

/-- Bird.__init__(x, y). -/
def Bird.init (x y : ℚ) : Bird :=
  { x := x, y := y, tilt := 0, tick_count := 0, velocity := 0, height := y,
    image_count := 0 }

/-- Bird.jump: velocity := -10.5, tick_count := 0, height := y. -/
def Bird.jump (b : Bird) : Bird :=
  { b with velocity := -21/2, tick_count := 0, height := b.y }

/-- The per-tick vertical displacement computed inside Bird.move when the
(incremented) tick counter equals t:
displacement = velocity * t + 1.5 * t**2, clamped above at 16, and
decreased by 2 when negative. -/
def displacement (v : ℚ) (t : ℕ) : ℚ :=
  let d0 : ℚ := v * t + 3/2 * (t : ℚ) ^ 2
  let d1 : ℚ := if 16 ≤ d0 then 16 else d0
  if d1 < 0 then d1 - 2 else d1

/-- Bird.move: increment tick_count, displace y, adjust tilt. -/
def Bird.move (b : Bird) : Bird :=
  let tc := b.tick_count + 1
  let d := displacement b.velocity tc
  let y := b.y + d
  let tilt :=
    if d < 0 ∨ y < b.height + 50 then
      (if b.tilt < Bird.MAX_ROTATION then Bird.MAX_ROTATION else b.tilt)
    else
      (if -90 < b.tilt then b.tilt - Bird.ROTATION_VELOCITY else b.tilt)
  { b with tick_count := tc, y := y, tilt := tilt }

/-- Pipe object (source class `Pipe`).  The flipped/plain pipe surfaces are
presentation-only; the pipe sprite height enters as `Params.pipeH`. -/
structure Pipe where
  x : ℚ
  height : ℚ
  gap : ℚ
  top : ℚ
  bottom : ℚ
  passed : Bool
deriving DecidableEq, Repr

/-- Pipe constant GAP (vertical separation of the two segments). -/
def Pipe.GAP : ℚ := 200

/-- Pipe constant VELOCITY (horizontal speed). -/
def Pipe.VELOCITY : ℚ := 5

/-- Pipe.set_height, with the random height h = random.randrange(50, 450)
passed in explicitly, and pipeH standing for self.PIPE_TOP.get_height(). -/
def Pipe.set_height (pipeH : ℚ) (p : Pipe) (h : ℚ) : Pipe :=
  { p with height := h, top := h - pipeH, bottom := h + Pipe.GAP }

/-- Pipe.__init__(x), with the randrange draw h made explicit. -/
def Pipe.init (pipeH : ℚ) (x : ℚ) (h : ℚ) : Pipe :=
  Pipe.set_height pipeH
    { x := x, height := 0, gap := 100, top := 0, bottom := 0, passed := false } h

/-- Pipe.move. -/
def Pipe.move (p : Pipe) : Pipe :=
  { p with x := p.x - Pipe.VELOCITY }

/-- Ground object (source class `Ground`). -/
structure Ground where
  y : ℚ
  x_start : ℚ
  x_end : ℚ
deriving DecidableEq, Repr

/-- Ground constant VELOCITY. -/
def Ground.VELOCITY : ℚ := 5

/-- Ground.__init__(y), with gW standing for BASE_IMAGE.get_width(). -/
def Ground.init (gW : ℚ) (y : ℚ) : Ground :=
  { y := y, x_start := 0, x_end := gW }

/-- Ground.move: translate both segments, wrapping each when fully off screen.
Note the second wrap test reads the possibly already wrapped x_start, exactly
as in the source. -/
def Ground.move (gW : ℚ) (g : Ground) : Ground :=
  let xs0 := g.x_start - Ground.VELOCITY
  let xe0 := g.x_end - Ground.VELOCITY
  let xs1 := if xs0 + gW < 0 then xe0 + gW else xs0
  let xe1 := if xe0 + gW < 0 then xs1 + gW else xe0
  { g with x_start := xs1, x_end := xe1 }

/-- Environment constants of one generation trial: the abstract pixel-mask
collision test and the sprite dimensions read via pygame. -/
structure Params where
  collide : Pipe → Bird → Bool
  birdH : ℚ
  pipeH : ℚ
  pipeW : ℚ
  groundW : ℚ

/-- The three index-aligned lists mutated by the elimination scans. -/
structure Scan3 where
  birds : List Bird
  nets : List Net
  ge : List ℚ

/-- World state of one generation trial inside `main`: the three parallel
collections plus pipes, ground and the shared score. -/
structure WState where
  birds : List Bird
  networks : List Net
  ge : List ℚ
  pipes : List Pipe
  ground : Ground
  score : ℕ

/-- Placeholder bird used for (total) list indexing; `main` only indexes
birds[0] after checking the list is nonempty. -/
def dfltBird : Bird := Bird.init 0 0

/-- Placeholder pipe used for (total) list indexing. -/
def dfltPipe (pipeH : ℚ) : Pipe := Pipe.init pipeH 0 0

/-- pipe_index selection (lines 295-298): 1 when there are at least two pipes
and the lead bird is past the first pipe's right edge, else 0. -/
def pipeIndex (P : Params) (s : WState) : ℕ :=
  if 1 < s.pipes.length ∧
      (s.pipes.headD (dfltPipe P.pipeH)).x + P.pipeW < (s.birds.headD dfltBird).x
  then 1 else 0

/-- pipes[pipe_index], the obstacle every controller observes this tick. -/
def curPipe (P : Params) (s : WState) : Pipe :=
  s.pipes.getD (pipeIndex P s) (dfltPipe P.pipeH)

/-- Per-bird tick work (lines 304-312): move, +0.1 fitness, consult the
controller, jump when its output exceeds 0.5. -/
def birdUpdate (pipe : Pipe) (b : Bird) (net : Net) (f : ℚ) : Bird × ℚ :=
  let b1 := b.move
  let f1 := f + 1/10
  let out := net (b1.y, |b1.y - pipe.height|, |b1.y - pipe.bottom|)
  (if 1/2 < out then b1.jump else b1, f1)

/-- The per-bird loop (lines 304-312) over the three parallel lists.  This
loop only mutates entries in place (no pops), so it is a plain simultaneous
traversal. -/
def birdsUpdate (pipe : Pipe) : List Bird → List Net → List ℚ → List Bird × List ℚ
  | b :: bs, n :: ns, f :: fs =>
    let u := birdUpdate pipe b n f
    let r := birdsUpdate pipe bs ns fs
    (u.1 :: r.1, u.2 :: r.2)
  | _, _, _ => ([], [])

/-- The pipe-passed update of one inner-loop iteration (lines 327-329):
when the pipe is not yet passed and pipe.x < bird.x, set both the pipe's
passed flag and the shared add_pipe flag. -/
def passUpd (pipe : Pipe) (b : Bird) (ps ap : Bool) : Bool × Bool :=
  if !ps ∧ pipe.x < b.x then (true, true) else (ps, ap)

/-- The inner collision loop of one pipe (lines 317-329), with Python's
in-place pop semantics: on a collision the triple at the cursor is removed
(the -1 fitness penalty lands on the removed accumulator), the passed check
still runs for the removed bird, and the element shifted into the freed slot
is skipped.  ps threads pipe.passed; ap threads add_pipe. -/
def collideScan (coll : Pipe → Bird → Bool) (pipe : Pipe) :
    List Bird → List Net → List ℚ → Bool → Bool → Scan3 × Bool × Bool
  | b :: b2 :: bs, n :: n2 :: ns, f :: f2 :: fs, ps, ap =>
    if coll { pipe with passed := ps } b then
      let pa := passUpd pipe b ps ap
      let r := collideScan coll pipe bs ns fs pa.1 pa.2
      (⟨b2 :: r.1.birds, n2 :: r.1.nets, f2 :: r.1.ge⟩, r.2)
    else
      let pa := passUpd pipe b ps ap
      let r := collideScan coll pipe (b2 :: bs) (n2 :: ns) (f2 :: fs) pa.1 pa.2
      (⟨b :: r.1.birds, n :: r.1.nets, f :: r.1.ge⟩, r.2)
  | [b], [n], [f], ps, ap =>
    let pa := passUpd pipe b ps ap
    if coll { pipe with passed := ps } b then (⟨[], [], []⟩, pa)
    else (⟨[b], [n], [f]⟩, pa)
  | _, _, _, ps, ap => (⟨[], [], []⟩, ps, ap)

/-- Result of the outer pipe loop: scanned pipes tagged with their buffered
removal mark, the surviving parallel lists, and the add_pipe flag. -/
structure PScan where
  pipes : List (Pipe × Bool)
  birds : List Bird
  nets : List Net
  ge : List ℚ
  ap : Bool

/-- The outer pipe loop (lines 314-335): per pipe run the collision scan,
record the off-screen mark from the pre-move x (removal of pipes is
buffered, line 333), then move the pipe. -/
def pipesScan (coll : Pipe → Bird → Bool) (pipeW : ℚ) :
    List Pipe → List Bird → List Net → List ℚ → Bool → PScan
  | [], bs, ns, fs, ap => ⟨[], bs, ns, fs, ap⟩
  | p :: rest, bs, ns, fs, ap =>
    let c := collideScan coll p bs ns fs p.passed ap
    let p1 : Pipe := { p with passed := c.2.1 }
    let rm := decide (p.x + pipeW < 0)
    let r := pipesScan coll pipeW rest c.1.birds c.1.nets c.1.ge c.2.2
    ⟨(p1.move, rm) :: r.pipes, r.birds, r.nets, r.ge, r.ap⟩

/-- The out-of-bounds test of the ground-collision loop (line 350):
bird.y + bird.image.get_height() >= ground.y or bird.y < 0. -/
def oobChk (birdH groundY : ℚ) (b : Bird) : Bool :=
  decide (groundY ≤ b.y + birdH) || decide (b.y < 0)

/-- The ground-collision loop (lines 349-353) over the three parallel lists,
with Python's in-place pop semantics: the triple at the cursor is removed
when the bird is out of bounds, and the element shifted into the freed slot
is skipped without being examined. -/
def groundScan3 (p : Bird → Bool) : List Bird → List Net → List ℚ → Scan3
  | b :: b2 :: bs, n :: n2 :: ns, f :: f2 :: fs =>
    if p b then
      let r := groundScan3 p bs ns fs
      ⟨b2 :: r.birds, n2 :: r.nets, f2 :: r.ge⟩
    else
      let r := groundScan3 p (b2 :: bs) (n2 :: ns) (f2 :: fs)
      ⟨b :: r.birds, n :: r.nets, f :: r.ge⟩
  | [b], [n], [f] => if p b then ⟨[], [], []⟩ else ⟨[b], [n], [f]⟩
  | _, _, _ => ⟨[], [], []⟩

/-- Phase 1 of a tick: the per-bird loop. -/
def phase1 (P : Params) (s : WState) : List Bird × List ℚ :=
  birdsUpdate (curPipe P s) s.birds s.networks s.ge

/-- Phase 2 of a tick: the pipe loop, starting from add_pipe = False. -/
def phase2 (P : Params) (s : WState) : PScan :=
  pipesScan P.collide P.pipeW s.pipes (phase1 P s).1 s.networks (phase1 P s).2 false

/-- One full pass of the main loop body (lines 295-353), excluding the
break tests and the final ground.move: per-bird updates, pipe scans, the
add_pipe block (score += 1, +5 to every remaining accumulator, spawn a new
pipe at x = 600 with fresh random height newH), buffered pipe removal, and
the ground-collision pops.  ground.move is applied separately because the
source runs it only when the loop continues (line 360 is after the score
break). -/
def tickBody (P : Params) (newH : ℚ) (s : WState) : WState :=
  let r := phase2 P s
  let fs3 := if r.ap then r.ge.map (· + 5) else r.ge
  let g := groundScan3 (oobChk P.birdH s.ground.y) r.birds r.nets fs3
  { birds := g.birds, networks := g.nets, ge := g.ge,
    pipes := (r.pipes.filter (fun q => !q.2)).map Prod.fst ++
      (if r.ap then [Pipe.init P.pipeH 600 newH] else []),
    ground := s.ground,
    score := if r.ap then s.score + 1 else s.score }

/-- A continuing tick: the loop body followed by ground.move. -/
def tickStep (P : Params) (newH : ℚ) (s : WState) : WState :=
  let s1 := tickBody P newH s
  { s1 with ground := Ground.move P.groundW s1.ground }

/-- One iteration of the while loop, including both break points: error
means the loop exits (with the state at exit), ok means it continues.
The loop breaks at the top when no birds remain (lines 299-302, before any
per-bird work) and at the bottom when the score exceeds 150 (lines 356-358,
before ground.move). -/
def tick (P : Params) (newH : ℚ) (s : WState) : Except WState WState :=
  if s.birds.isEmpty then .error s
  else
    let s1 := tickBody P newH s
    if 150 < s1.score then .error s1
    else .ok { s1 with ground := Ground.move P.groundW s1.ground }

/-- k consecutive loop iterations, none of which may hit a break; hs
supplies the random height for the pipe (possibly) spawned at each tick. -/
def runTicks (P : Params) (hs : ℕ → ℚ) : ℕ → WState → Option WState
  | 0, s => some s
  | k + 1, s =>
    match tick P (hs k) s with
    | .ok s1 => runTicks P hs k s1
    | .error _ => none

/-- Trial setup in `main` (lines 265-281): one bird at (230, 350) and one
zeroed fitness accumulator per genome, a single pipe at x = 700 (its random
height h0 made explicit), the ground at y = 730, score 0. -/
def initState (P : Params) (nets : List Net) (h0 : ℚ) : WState :=
  { birds := nets.map (fun _ => Bird.init 230 350),
    networks := nets,
    ge := nets.map (fun _ => 0),
    pipes := [Pipe.init P.pipeH 700 h0],
    ground := Ground.init P.groundW 730,
    score := 0 }

/-- States a trial can pass through: the initial state, closed under loop
iterations (with arbitrary random pipe heights). -/
inductive WReach (P : Params) : WState → Prop
  | init (nets : List Net) (h0 : ℚ) : WReach P (initState P nets h0)
  | step {s : WState} (newH : ℚ) : WReach P s → WReach P (tickStep P newH s)

/-- Bird states produced by the game: constructed by Bird.__init__ and then
transformed by Bird.move and Bird.jump only. -/
inductive BirdReach : Bird → Prop
  | init (x y : ℚ) : BirdReach (Bird.init x y)
  | move {b : Bird} : BirdReach b → BirdReach b.move
  | jump {b : Bird} : BirdReach b → BirdReach b.jump

/-- Apply a removal mask to a list: drop the elements whose mask entry is
true.  Used to state that the elimination scans remove entries of the three
parallel lists at exactly the same indices. -/
def applyMask {α : Type _} : List Bool → List α → List α
  | m :: ms, a :: as => if m then applyMask ms as else a :: applyMask ms as
  | _, as => as

/-- Number of pipes whose passed flag is still false. -/
def unpassedCount (ps : List Pipe) : ℕ :=
  ps.countP (fun p => !p.passed)

/-- Number of pipes that changed from unpassed to passed, matching old and
new pipe lists positionally. -/
def newPassedCount (old new : List Pipe) : ℕ :=
  (old.zip new).countP (fun q => !q.1.passed && q.2.passed)

/-- Modelled from the spec: the reference ground-collision scan that scans
an immutable snapshot of the agents, collecting eliminations, and removes
the eliminated triples only after the scan completes.  Removal-after-scan
over a snapshot coincides with filtering the out-of-bounds triples out. -/
def refGroundScan3 (p : Bird → Bool) : List Bird → List Net → List ℚ → Scan3
  | b :: bs, n :: ns, f :: fs =>
    let r := refGroundScan3 p bs ns fs
    if p b then r else ⟨b :: r.birds, n :: r.nets, f :: r.ge⟩
  | _, _, _ => ⟨[], [], []⟩

/-- Modelled from the spec: the reference collision scan of one pipe that
scans an immutable snapshot of the agents (every agent gets its collision
and passed checks), collecting eliminations, and removes the eliminated
triples after the scan completes. -/
def refCollideScan (coll : Pipe → Bird → Bool) (pipe : Pipe) :
    List Bird → List Net → List ℚ → Bool → Bool → Scan3 × Bool × Bool
  | b :: bs, n :: ns, f :: fs, ps, ap =>
    let hit := coll { pipe with passed := ps } b
    let pa := passUpd pipe b ps ap
    let r := refCollideScan coll pipe bs ns fs pa.1 pa.2
    if hit then r else (⟨b :: r.1.birds, n :: r.1.nets, f :: r.1.ge⟩, r.2)
  | _, _, _, ps, ap => (⟨[], [], []⟩, ps, ap)

/-- Modelled from the spec: the outer pipe loop with the reference
(snapshot) collision scan in place of the in-place one. -/
def refPipesScan (coll : Pipe → Bird → Bool) (pipeW : ℚ) :
    List Pipe → List Bird → List Net → List ℚ → Bool → PScan
  | [], bs, ns, fs, ap => ⟨[], bs, ns, fs, ap⟩
  | p :: rest, bs, ns, fs, ap =>
    let c := refCollideScan coll p bs ns fs p.passed ap
    let p1 : Pipe := { p with passed := c.2.1 }
    let rm := decide (p.x + pipeW < 0)
    let r := refPipesScan coll pipeW rest c.1.birds c.1.nets c.1.ge c.2.2
    ⟨(p1.move, rm) :: r.pipes, r.birds, r.nets, r.ge, r.ap⟩

/-- Modelled from the spec: the reference tick step whose per-tick agent
eliminations are collected over immutable snapshots and applied after each
scan, everything else as in the implementation tick. -/
def refTickBody (P : Params) (newH : ℚ) (s : WState) : WState :=
  let r := refPipesScan P.collide P.pipeW s.pipes (phase1 P s).1 s.networks
    (phase1 P s).2 false
  let fs3 := if r.ap then r.ge.map (· + 5) else r.ge
  let g := refGroundScan3 (oobChk P.birdH s.ground.y) r.birds r.nets fs3
  { birds := g.birds, networks := g.nets, ge := g.ge,
    pipes := (r.pipes.filter (fun q => !q.2)).map Prod.fst ++
      (if r.ap then [Pipe.init P.pipeH 600 newH] else []),
    ground := s.ground,
    score := if r.ap then s.score + 1 else s.score }

/-- A controller that never requests a jump (constant output 0). -/
def netZero : Net := fun _ => 0

/-- Concrete parameters used for closed evaluations: no pipe collisions,
sprite sizes 100, 100, 100, 100. -/
def cxParams : Params := ⟨fun _ _ => false, 100, 100, 100, 100⟩

/-- Concrete world state with two birds that are both out of bounds (y = 800
is below the ground line 730): the in-place ground scan removes only the
first of them in one tick. -/
def cxState : WState :=
  ⟨[Bird.init 230 800, Bird.init 230 800], [netZero, netZero], [0, 0],
   [Pipe.init 100 700 200], Ground.init 100 730, 0⟩

/-- The state after one tick of a 1-genome trial under cxParams with the
never-jump controller: the bird has fallen to y = 350 + 1.5, its accumulator
holds 0.1, the pipe has advanced 5 px, the ground has scrolled. -/
def c3final : WState :=
  ⟨[⟨230, 703/2, 25, 1, 0, 350, 0⟩], [netZero], [1/10],
   [⟨695, 200, 100, 100, 400, false⟩], ⟨730, -5, 95⟩, 0⟩

/-! Theorems. -/

theorem len3_cases {alpha beta gamma : Type _} (t : List alpha) (x : List beta) (x1 : List gamma)
    (h1 : t.length = x.length) (h2 : x.length = x1.length) :
    (t = [] ∧ x = [] ∧ x1 = []) ∨
    (∃ a b c, t = [a] ∧ x = [b] ∧ x1 = [c]) ∨
    (∃ a a2 ta b b2 xb c c2 xc,
      t = a :: a2 :: ta ∧ x = b :: b2 :: xb ∧ x1 = c :: c2 :: xc) := by
  rcases t with _ | ⟨a, _ | ⟨a2, ta⟩⟩ <;> rcases x with _ | ⟨b, _ | ⟨b2, xb⟩⟩ <;>
    rcases x1 with _ | ⟨c, _ | ⟨c2, xc⟩⟩ <;> simp_all

theorem mem_of_applyMask {alpha : Type _} {a : alpha} :
    ∀ (m : List Bool) (xs : List alpha), a ∈ applyMask m xs → a ∈ xs
  | [], _, h => h
  | _ :: _, [], h => h
  | m :: ms, x :: xs, h => by
    by_cases hm : m <;> simp only [applyMask, hm, if_true, if_false] at h
    · exact List.mem_cons_of_mem x (mem_of_applyMask ms xs h)
    · rcases List.mem_cons.mp h with h | h
      · exact h ▸ List.mem_cons_self x xs
      · exact List.mem_cons_of_mem x (mem_of_applyMask ms xs h)

theorem applyMask_length_eq {alpha beta : Type _} :
    ∀ (m : List Bool) (xs : List alpha) (ys : List beta),
      xs.length = ys.length → (applyMask m xs).length = (applyMask m ys).length
  | [], xs, ys, h => by simpa [applyMask] using h
  | _ :: _, [], ys, h => by
    have : ys = [] := List.length_eq_zero.mp h.symm
    subst this; rfl
  | m :: ms, x :: xs, ys, h => by
    rcases ys with _ | ⟨y, ys⟩
    · simp at h
    · simp only [List.length_cons, Nat.succ.injEq] at h
      by_cases hm : m <;>
        simp only [applyMask, hm, if_true, if_false, List.length_cons]
      · exact applyMask_length_eq ms xs ys h
      · exact congrArg Nat.succ (applyMask_length_eq ms xs ys h)

theorem groundScan3_mask (p : Bird → Bool) :
    ∀ (bs : List Bird) (ns : List Net) (fs : List ℚ),
      bs.length = ns.length → ns.length = fs.length →
      ∃ m : List Bool,
        (groundScan3 p bs ns fs).birds = applyMask m bs ∧
        (groundScan3 p bs ns fs).nets = applyMask m ns ∧
        (groundScan3 p bs ns fs).ge = applyMask m fs := by
  intro bs ns fs
  induction bs, ns, fs using groundScan3.induct p with
  | case1 b b2 bs n n2 ns f f2 fs hp ih =>
    intro h1 h2
    simp only [List.length_cons, Nat.succ.injEq] at h1 h2
    obtain ⟨m, hb, hn, hf⟩ := ih h1 h2
    refine ⟨true :: false :: m, ?_, ?_, ?_⟩ <;>
      simp [groundScan3, hp, applyMask, hb, hn, hf]
  | case2 b b2 bs n n2 ns f f2 fs hp ih =>
    intro h1 h2
    simp only [List.length_cons, Nat.succ.injEq] at h1 h2
    obtain ⟨m, hb, hn, hf⟩ := ih (by simpa using h1) (by simpa using h2)
    refine ⟨false :: m, ?_, ?_, ?_⟩ <;>
      simp [groundScan3, hp, applyMask, hb, hn, hf]
  | case3 b n f hp =>
    intro _ _
    exact ⟨[true], by simp [groundScan3, hp, applyMask]⟩
  | case4 b n f hp =>
    intro _ _
    exact ⟨[false], by simp [groundScan3, hp, applyMask]⟩
  | case5 t x x1 hx1 hx2 =>
    intro h1 h2
    rcases len3_cases t x x1 h1 h2 with ⟨rfl, rfl, rfl⟩ | ⟨a, b, c, rfl, rfl, rfl⟩ |
      ⟨a, a2, ta, b, b2, xb, c, c2, xc, rfl, rfl, rfl⟩
    · exact ⟨[], by simp [groundScan3, applyMask]⟩
    · exact (hx2 a b c rfl rfl rfl).elim
    · exact (hx1 a a2 ta b b2 xb c c2 xc rfl rfl rfl).elim

theorem groundScan3_ge_mem (p : Bird → Bool) :
    ∀ (bs : List Bird) (ns : List Net) (fs : List ℚ),
      ∀ f1 ∈ (groundScan3 p bs ns fs).ge, f1 ∈ fs := by
  intro bs ns fs
  induction bs, ns, fs using groundScan3.induct p with
  | case1 b b2 bs n n2 ns f f2 fs hp ih =>
    intro f1 hf1
    simp only [groundScan3, hp, if_true] at hf1
    rcases List.mem_cons.mp hf1 with h | h
    · simp [h]
    · simp [List.mem_cons_of_mem, ih f1 h]
  | case2 b b2 bs n n2 ns f f2 fs hp ih =>
    intro f1 hf1
    simp only [groundScan3, hp, if_false, Bool.false_eq_true] at hf1
    rcases List.mem_cons.mp hf1 with h | h
    · simp [h]
    · exact List.mem_cons_of_mem f (ih f1 h)
  | case3 b n f hp =>
    intro f1 hf1
    simp [groundScan3, hp] at hf1
  | case4 b n f hp =>
    intro f1 hf1
    simp only [groundScan3, hp, if_false, Bool.false_eq_true] at hf1
    simpa using hf1
  | case5 t x x1 hx1 hx2 =>
    intro f1 hf1
    rcases t with _ | ⟨a, _ | ⟨a2, ta⟩⟩ <;>
      rcases x with _ | ⟨b, _ | ⟨b2, xb⟩⟩ <;>
      rcases x1 with _ | ⟨c, _ | ⟨c2, xc⟩⟩ <;>
      first
        | exact absurd hf1 (List.not_mem_nil f1)
        | exact (hx2 _ _ _ rfl rfl rfl).elim
        | exact (hx1 _ _ _ _ _ _ _ _ _ rfl rfl rfl).elim

theorem groundScan3_eq_ref (p : Bird → Bool) :
    ∀ (bs : List Bird) (ns : List Net) (fs : List ℚ),
      bs.length = ns.length → ns.length = fs.length →
      bs.Chain' (fun a b => ¬(p a = true ∧ p b = true)) →
      groundScan3 p bs ns fs = refGroundScan3 p bs ns fs := by
  intro bs ns fs
  induction bs, ns, fs using groundScan3.induct p with
  | case1 b b2 bs n n2 ns f f2 fs hp ih =>
    intro h1 h2 hc
    have hcb : ¬(p b = true ∧ p b2 = true) := (List.chain'_cons.mp hc).1
    have hb2 : p b2 = false := by
      rcases Bool.eq_false_or_eq_true (p b2) with h | h
      · exact (hcb ⟨hp, h⟩).elim
      · exact h
    simp only [List.length_cons, Nat.succ.injEq] at h1 h2
    have htail : bs.Chain' (fun a b => ¬(p a = true ∧ p b = true)) :=
      ((List.chain'_cons.mp hc).2).tail
    rw [show groundScan3 p (b :: b2 :: bs) (n :: n2 :: ns) (f :: f2 :: fs)
        = ⟨b2 :: (groundScan3 p bs ns fs).birds, n2 :: (groundScan3 p bs ns fs).nets,
           f2 :: (groundScan3 p bs ns fs).ge⟩ from by simp [groundScan3, hp]]
    rw [show refGroundScan3 p (b :: b2 :: bs) (n :: n2 :: ns) (f :: f2 :: fs)
        = refGroundScan3 p (b2 :: bs) (n2 :: ns) (f2 :: fs) from by
          simp [refGroundScan3, hp]]
    rw [show refGroundScan3 p (b2 :: bs) (n2 :: ns) (f2 :: fs)
        = ⟨b2 :: (refGroundScan3 p bs ns fs).birds, n2 :: (refGroundScan3 p bs ns fs).nets,
           f2 :: (refGroundScan3 p bs ns fs).ge⟩ from by simp [refGroundScan3, hb2]]
    rw [ih h1 h2 htail]
  | case2 b b2 bs n n2 ns f f2 fs hp ih =>
    intro h1 h2 hc
    simp only [List.length_cons, Nat.succ.injEq] at h1 h2
    have htail : (b2 :: bs).Chain' (fun a b => ¬(p a = true ∧ p b = true)) :=
      (List.chain'_cons.mp hc).2
    rw [show groundScan3 p (b :: b2 :: bs) (n :: n2 :: ns) (f :: f2 :: fs)
        = ⟨b :: (groundScan3 p (b2 :: bs) (n2 :: ns) (f2 :: fs)).birds,
           n :: (groundScan3 p (b2 :: bs) (n2 :: ns) (f2 :: fs)).nets,
           f :: (groundScan3 p (b2 :: bs) (n2 :: ns) (f2 :: fs)).ge⟩ from by
          simp [groundScan3, hp]]
    rw [show refGroundScan3 p (b :: b2 :: bs) (n :: n2 :: ns) (f :: f2 :: fs)
        = ⟨b :: (refGroundScan3 p (b2 :: bs) (n2 :: ns) (f2 :: fs)).birds,
           n :: (refGroundScan3 p (b2 :: bs) (n2 :: ns) (f2 :: fs)).nets,
           f :: (refGroundScan3 p (b2 :: bs) (n2 :: ns) (f2 :: fs)).ge⟩ from by
          simp [refGroundScan3, hp]]
    rw [ih (by simpa using h1) (by simpa using h2) htail]
  | case3 b n f hp =>
    intro _ _ _
    simp [groundScan3, refGroundScan3, hp]
  | case4 b n f hp =>
    intro _ _ _
    simp [groundScan3, refGroundScan3, hp]
  | case5 t x x1 hx1 hx2 =>
    intro h1 h2 _
    rcases len3_cases t x x1 h1 h2 with ⟨rfl, rfl, rfl⟩ | ⟨a, b, c, rfl, rfl, rfl⟩ |
      ⟨a, a2, ta, b, b2, xb, c, c2, xc, rfl, rfl, rfl⟩
    · rfl
    · exact (hx2 _ _ _ rfl rfl rfl).elim
    · exact (hx1 _ _ _ _ _ _ _ _ _ rfl rfl rfl).elim

theorem collideScan_mask (coll : Pipe → Bird → Bool) (pipe : Pipe) :
    ∀ (bs : List Bird) (ns : List Net) (fs : List ℚ) (ps ap : Bool),
      bs.length = ns.length → ns.length = fs.length →
      ∃ m : List Bool,
        (collideScan coll pipe bs ns fs ps ap).1.birds = applyMask m bs ∧
        (collideScan coll pipe bs ns fs ps ap).1.nets = applyMask m ns ∧
        (collideScan coll pipe bs ns fs ps ap).1.ge = applyMask m fs := by
  intro bs ns fs ps ap
  induction bs, ns, fs, ps, ap using collideScan.induct coll pipe with
  | case1 b b2 bs n n2 ns f f2 fs ps ap hp pa ih =>
    intro h1 h2
    rw [show pa = passUpd pipe b ps ap from rfl] at ih
    simp only [List.length_cons, Nat.succ.injEq] at h1 h2
    obtain ⟨m, hb, hn, hf⟩ := ih h1 h2
    refine ⟨true :: false :: m, ?_, ?_, ?_⟩ <;>
      simp [collideScan, hp, applyMask, hb, hn, hf]
  | case2 b b2 bs n n2 ns f f2 fs ps ap hp pa ih =>
    intro h1 h2
    rw [show pa = passUpd pipe b ps ap from rfl] at ih
    obtain ⟨m, hb, hn, hf⟩ := ih (by simpa using h1) (by simpa using h2)
    refine ⟨false :: m, ?_, ?_, ?_⟩ <;>
      simp [collideScan, hp, applyMask, hb, hn, hf]
  | case3 b n f ps ap hp =>
    intro _ _
    exact ⟨[true], by simp [collideScan, hp, applyMask]⟩
  | case4 b n f ps ap hp =>
    intro _ _
    exact ⟨[false], by simp [collideScan, hp, applyMask]⟩
  | case5 t x x1 ps ap hx1 hx2 =>
    intro h1 h2
    rcases len3_cases t x x1 h1 h2 with ⟨rfl, rfl, rfl⟩ | ⟨a, b, c, rfl, rfl, rfl⟩ |
      ⟨a, a2, ta, b, b2, xb, c, c2, xc, rfl, rfl, rfl⟩
    · exact ⟨[], by simp [collideScan, applyMask]⟩
    · exact (hx2 _ _ _ rfl rfl rfl).elim
    · exact (hx1 _ _ _ _ _ _ _ _ _ rfl rfl rfl).elim

theorem collideScan_ge_mem (coll : Pipe → Bird → Bool) (pipe : Pipe) :
    ∀ (bs : List Bird) (ns : List Net) (fs : List ℚ) (ps ap : Bool),
      ∀ f1 ∈ (collideScan coll pipe bs ns fs ps ap).1.ge, f1 ∈ fs := by
  intro bs ns fs ps ap
  induction bs, ns, fs, ps, ap using collideScan.induct coll pipe with
  | case1 b b2 bs n n2 ns f f2 fs ps ap hp pa ih =>
    intro f1 hf1
    rw [show pa = passUpd pipe b ps ap from rfl] at ih
    simp only [collideScan, hp, if_true] at hf1
    rcases List.mem_cons.mp hf1 with h | h
    · simp [h]
    · simp [List.mem_cons_of_mem, ih f1 h]
  | case2 b b2 bs n n2 ns f f2 fs ps ap hp pa ih =>
    intro f1 hf1
    rw [show pa = passUpd pipe b ps ap from rfl] at ih
    simp only [collideScan, hp, if_false, Bool.false_eq_true] at hf1
    rcases List.mem_cons.mp hf1 with h | h
    · simp [h]
    · exact List.mem_cons_of_mem f (ih f1 h)
  | case3 b n f ps ap hp =>
    intro f1 hf1
    simp [collideScan, hp] at hf1
  | case4 b n f ps ap hp =>
    intro f1 hf1
    simp only [collideScan, hp, if_false, Bool.false_eq_true] at hf1
    simpa using hf1
  | case5 t x x1 ps ap hx1 hx2 =>
    intro f1 hf1
    rcases t with _ | ⟨a, _ | ⟨a2, ta⟩⟩ <;>
      rcases x with _ | ⟨b, _ | ⟨b2, xb⟩⟩ <;>
      rcases x1 with _ | ⟨c, _ | ⟨c2, xc⟩⟩ <;>
      first
        | exact absurd hf1 (List.not_mem_nil f1)
        | exact (hx2 _ _ _ rfl rfl rfl).elim
        | exact (hx1 _ _ _ _ _ _ _ _ _ rfl rfl rfl).elim

theorem collideScan_flags (coll : Pipe → Bird → Bool) (pipe : Pipe) :
    ∀ (bs : List Bird) (ns : List Net) (fs : List ℚ) (ps ap : Bool),
      ∃ c : Bool,
        (collideScan coll pipe bs ns fs ps ap).2.1 = (ps || c) ∧
        (collideScan coll pipe bs ns fs ps ap).2.2 = (ap || (!ps && c)) := by
  intro bs ns fs ps ap
  induction bs, ns, fs, ps, ap using collideScan.induct coll pipe with
  | case1 b b2 bs n n2 ns f f2 fs ps ap hp pa ih =>
    rw [show pa = passUpd pipe b ps ap from rfl] at ih
    obtain ⟨c, hc1, hc2⟩ := ih
    by_cases hf : ((!ps) = true ∧ pipe.x < b.x)
    · have hps : ps = false := by simpa using hf.1
      rw [passUpd, if_pos hf] at hc1 hc2
      dsimp only at hc1 hc2
      subst hps
      refine ⟨true, ?_, ?_⟩ <;>
        simp [collideScan, hp, passUpd, hf.2, hc1, hc2]
    · have hf2 : ¬(ps = false ∧ pipe.x < b.x) := by simpa using hf
      rw [passUpd, if_neg hf] at hc1 hc2
      dsimp only at hc1 hc2
      refine ⟨c, ?_, ?_⟩ <;>
        simp [collideScan, hp, passUpd, hf2, hc1, hc2]
  | case2 b b2 bs n n2 ns f f2 fs ps ap hp pa ih =>
    rw [show pa = passUpd pipe b ps ap from rfl] at ih
    obtain ⟨c, hc1, hc2⟩ := ih
    by_cases hf : ((!ps) = true ∧ pipe.x < b.x)
    · have hps : ps = false := by simpa using hf.1
      rw [passUpd, if_pos hf] at hc1 hc2
      dsimp only at hc1 hc2
      subst hps
      refine ⟨true, ?_, ?_⟩ <;>
        simp [collideScan, hp, passUpd, hf.2, hc1, hc2]
    · have hf2 : ¬(ps = false ∧ pipe.x < b.x) := by simpa using hf
      rw [passUpd, if_neg hf] at hc1 hc2
      dsimp only at hc1 hc2
      refine ⟨c, ?_, ?_⟩ <;>
        simp [collideScan, hp, passUpd, hf2, hc1, hc2]
  | case3 b n f ps ap hp =>
    by_cases hf : ((!ps) = true ∧ pipe.x < b.x)
    · have hps : ps = false := by simpa using hf.1
      subst hps
      refine ⟨true, ?_, ?_⟩ <;> simp [collideScan, hp, passUpd, hf.2]
    · have hf2 : ¬(ps = false ∧ pipe.x < b.x) := by simpa using hf
      refine ⟨false, ?_, ?_⟩ <;> simp [collideScan, hp, passUpd, hf2]
  | case4 b n f ps ap hp =>
    by_cases hf : ((!ps) = true ∧ pipe.x < b.x)
    · have hps : ps = false := by simpa using hf.1
      subst hps
      refine ⟨true, ?_, ?_⟩ <;> simp [collideScan, hp, passUpd, hf.2]
    · have hf2 : ¬(ps = false ∧ pipe.x < b.x) := by simpa using hf
      refine ⟨false, ?_, ?_⟩ <;> simp [collideScan, hp, passUpd, hf2]
  | case5 t x x1 ps ap hx1 hx2 =>
    refine ⟨false, ?_, ?_⟩ <;>
      rcases t with _ | ⟨a, _ | ⟨a2, ta⟩⟩ <;>
      rcases x with _ | ⟨b, _ | ⟨b2, xb⟩⟩ <;>
      rcases x1 with _ | ⟨c, _ | ⟨c2, xc⟩⟩ <;>
      first
        | exact (hx2 _ _ _ rfl rfl rfl).elim
        | exact (hx1 _ _ _ _ _ _ _ _ _ rfl rfl rfl).elim
        | simp [collideScan]

theorem birdsUpdate_ge_mem (pipe : Pipe) :
    ∀ (bs : List Bird) (ns : List Net) (fs : List ℚ),
      ∀ f1 ∈ (birdsUpdate pipe bs ns fs).2, ∃ f0 ∈ fs, f1 = f0 + 1/10 := by
  intro bs ns fs
  induction bs, ns, fs using birdsUpdate.induct pipe with
  | case1 b bs n ns f fs ih =>
    intro f1 hf1
    simp only [birdsUpdate] at hf1
    rcases List.mem_cons.mp hf1 with h | h
    · exact ⟨f, List.mem_cons_self f fs, by simpa [birdUpdate] using h⟩
    · obtain ⟨f0, hf0, heq⟩ := ih f1 h
      exact ⟨f0, List.mem_cons_of_mem f hf0, heq⟩
  | case2 t x x1 hx =>
    intro f1 hf1
    rcases t with _ | ⟨a, ta⟩ <;>
      rcases x with _ | ⟨b, xb⟩ <;>
      rcases x1 with _ | ⟨c, xc⟩ <;>
      first
        | exact absurd hf1 (List.not_mem_nil f1)
        | exact (hx _ _ _ _ _ _ rfl rfl rfl).elim

theorem birdsUpdate_len (pipe : Pipe) :
    ∀ (bs : List Bird) (ns : List Net) (fs : List ℚ),
      bs.length = ns.length → ns.length = fs.length →
      (birdsUpdate pipe bs ns fs).1.length = bs.length ∧
        (birdsUpdate pipe bs ns fs).2.length = fs.length := by
  intro bs ns fs
  induction bs, ns, fs using birdsUpdate.induct pipe with
  | case1 b bs n ns f fs ih =>
    intro h1 h2
    simp only [List.length_cons, Nat.succ.injEq] at h1 h2
    obtain ⟨ih1, ih2⟩ := ih h1 h2
    simp [birdsUpdate, ih1, ih2]
  | case2 t x x1 hx =>
    intro h1 h2
    rcases t with _ | ⟨a, ta⟩ <;>
      rcases x with _ | ⟨b, xb⟩ <;>
      rcases x1 with _ | ⟨c, xc⟩ <;>
      first
        | exact (hx _ _ _ _ _ _ rfl rfl rfl).elim
        | simp_all [birdsUpdate]

theorem collideScan_len (coll : Pipe → Bird → Bool) (pipe : Pipe)
    (bs : List Bird) (ns : List Net) (fs : List ℚ) (ps ap : Bool)
    (h1 : bs.length = ns.length) (h2 : ns.length = fs.length) :
    (collideScan coll pipe bs ns fs ps ap).1.birds.length
        = (collideScan coll pipe bs ns fs ps ap).1.nets.length ∧
      (collideScan coll pipe bs ns fs ps ap).1.nets.length
        = (collideScan coll pipe bs ns fs ps ap).1.ge.length := by
  obtain ⟨m, hb, hn, hf⟩ := collideScan_mask coll pipe bs ns fs ps ap h1 h2
  rw [hb, hn, hf]
  exact ⟨applyMask_length_eq m bs ns h1, applyMask_length_eq m ns fs h2⟩

theorem pipesScan_ge_mem (coll : Pipe → Bird → Bool) (pipeW : ℚ) :
    ∀ (pipes : List Pipe) (bs : List Bird) (ns : List Net) (fs : List ℚ) (ap : Bool),
      ∀ f1 ∈ (pipesScan coll pipeW pipes bs ns fs ap).ge, f1 ∈ fs := by
  intro pipes bs ns fs ap
  induction pipes, bs, ns, fs, ap using pipesScan.induct coll pipeW with
  | case1 bs ns fs ap =>
    intro f1 hf1
    simpa [pipesScan] using hf1
  | case2 p rest bs ns fs ap c ih =>
    intro f1 hf1
    rw [show c = collideScan coll p bs ns fs p.passed ap from rfl] at ih
    have hf2 : f1 ∈ (collideScan coll p bs ns fs p.passed ap).1.ge := by
      apply ih
      simpa [pipesScan] using hf1
    exact collideScan_ge_mem coll p bs ns fs p.passed ap f1 hf2

theorem pipesScan_len (coll : Pipe → Bird → Bool) (pipeW : ℚ) :
    ∀ (pipes : List Pipe) (bs : List Bird) (ns : List Net) (fs : List ℚ) (ap : Bool),
      bs.length = ns.length → ns.length = fs.length →
      (pipesScan coll pipeW pipes bs ns fs ap).birds.length
          = (pipesScan coll pipeW pipes bs ns fs ap).nets.length ∧
        (pipesScan coll pipeW pipes bs ns fs ap).nets.length
          = (pipesScan coll pipeW pipes bs ns fs ap).ge.length := by
  intro pipes bs ns fs ap
  induction pipes, bs, ns, fs, ap using pipesScan.induct coll pipeW with
  | case1 bs ns fs ap =>
    intro h1 h2
    simpa [pipesScan] using ⟨h1, h2⟩
  | case2 p rest bs ns fs ap c ih =>
    intro h1 h2
    rw [show c = collideScan coll p bs ns fs p.passed ap from rfl] at ih
    obtain ⟨g1, g2⟩ := collideScan_len coll p bs ns fs p.passed ap h1 h2
    have := ih g1 g2
    simpa [pipesScan] using this

theorem pipesScan_flags (coll : Pipe → Bird → Bool) (pipeW : ℚ) :
    ∀ (pipes : List Pipe) (bs : List Bird) (ns : List Net) (fs : List ℚ) (ap : Bool),
      (pipesScan coll pipeW pipes bs ns fs ap).pipes.length = pipes.length ∧
      (∀ pr ∈ pipes.zip ((pipesScan coll pipeW pipes bs ns fs ap).pipes.map Prod.fst),
          ∃ c : Bool, pr.2.passed = (pr.1.passed || c)) ∧
      unpassedCount ((pipesScan coll pipeW pipes bs ns fs ap).pipes.map Prod.fst)
          + newPassedCount pipes ((pipesScan coll pipeW pipes bs ns fs ap).pipes.map Prod.fst)
          = unpassedCount pipes ∧
      (pipesScan coll pipeW pipes bs ns fs ap).ap
          = (ap || decide (0 < newPassedCount pipes
              ((pipesScan coll pipeW pipes bs ns fs ap).pipes.map Prod.fst))) := by
  intro pipes bs ns fs ap
  induction pipes, bs, ns, fs, ap using pipesScan.induct coll pipeW with
  | case1 bs ns fs ap =>
    simp [pipesScan, unpassedCount, newPassedCount]
  | case2 p rest bs ns fs ap c ih =>
    rw [show c = collideScan coll p bs ns fs p.passed ap from rfl] at ih
    obtain ⟨ihlen, ihmono, ihcount, ihap⟩ := ih
    obtain ⟨d, hd1, hd2⟩ := collideScan_flags coll p bs ns fs p.passed ap
    have hmovepass : ∀ q : Pipe, (Pipe.move q).passed = q.passed := fun q => rfl
    have hflip : (!p.passed && (p.passed || d)) = (!p.passed && d) := by
      cases p.passed <;> cases d <;> rfl
    refine ⟨?_, ?_, ?_, ?_⟩
    · simpa [pipesScan] using ihlen
    · intro pr hpr
      simp only [pipesScan, List.map_cons, List.zip_cons_cons, List.mem_cons] at hpr
      rcases hpr with h | h
      · refine ⟨d, ?_⟩
        rw [h]
        simp [Pipe.move, hd1]
      · exact ihmono pr h
    · simp only [pipesScan, List.map_cons, unpassedCount, newPassedCount,
        List.zip_cons_cons, List.countP_cons]
      have hhead1 : ((if (!(Pipe.move { p with passed := (collideScan coll p bs ns fs p.passed ap).2.1 }).passed) = true then 1 else 0) : ℕ)
          = (if (!(p.passed || d)) = true then 1 else 0) := by
        simp [Pipe.move, hd1]
      have hhead2 : ((if (!p.passed && (Pipe.move { p with passed := (collideScan coll p bs ns fs p.passed ap).2.1 }).passed) = true then 1 else 0) : ℕ)
          = (if (!p.passed && d) = true then 1 else 0) := by
        simp only [Pipe.move, hmovepass, hd1]
        rw [hflip]
      rw [hhead1, hhead2]
      have hfin : ((if (!(p.passed || d)) = true then 1 else 0) : ℕ)
            + (if (!p.passed && d) = true then 1 else 0)
          = (if (!p.passed) = true then 1 else 0) := by
        cases p.passed <;> cases d <;> rfl
      unfold unpassedCount newPassedCount at ihcount
      omega
    · have hpm : (Pipe.move { p with passed := (collideScan coll p bs ns fs p.passed ap).2.1 }).passed
          = (p.passed || d) := by simp [Pipe.move, hd1]
      simp only [pipesScan, List.map_cons, newPassedCount, List.zip_cons_cons,
        List.countP_cons, hpm, hflip]
      rw [ihap, hd2]
      unfold newPassedCount
      cases ap <;> cases hx : (!p.passed && d) <;> simp_all

theorem tickBody_score (P : Params) (newH : ℚ) (s : WState) :
    (tickBody P newH s).score = if (phase2 P s).ap then s.score + 1 else s.score := rfl

theorem tickBody_ge_eq (P : Params) (newH : ℚ) (s : WState) :
    (tickBody P newH s).ge = (groundScan3 (oobChk P.birdH s.ground.y) (phase2 P s).birds
      (phase2 P s).nets (if (phase2 P s).ap then (phase2 P s).ge.map (· + 5)
        else (phase2 P s).ge)).ge := rfl

theorem phase2_ge_eq (P : Params) (s : WState) :
    (phase2 P s).ge = (pipesScan P.collide P.pipeW s.pipes (phase1 P s).1 s.networks
      (phase1 P s).2 false).ge := rfl

theorem tickBody_ge_mem (P : Params) (newH : ℚ) (s : WState) :
    ∀ f1 ∈ (tickBody P newH s).ge, ∃ f0 ∈ s.ge,
      f1 = f0 + 1/10 + (if (phase2 P s).ap then (5:ℚ) else 0) := by
  intro f1 hf1
  rw [tickBody_ge_eq] at hf1
  have h1 := groundScan3_ge_mem _ _ _ _ f1 hf1
  by_cases hap : (phase2 P s).ap
  · rw [if_pos hap] at h1
    obtain ⟨f2, hf2, hfe⟩ := List.mem_map.mp h1
    rw [phase2_ge_eq] at hf2
    have h3 := pipesScan_ge_mem P.collide P.pipeW _ _ _ _ _ f2 hf2
    obtain ⟨f0, hf0, hfe2⟩ := birdsUpdate_ge_mem _ _ _ _ f2 h3
    refine ⟨f0, hf0, ?_⟩
    rw [if_pos hap, ← hfe, hfe2]
  · rw [if_neg hap] at h1
    rw [phase2_ge_eq] at h1
    have h3 := pipesScan_ge_mem P.collide P.pipeW _ _ _ _ _ f1 h1
    obtain ⟨f0, hf0, hfe2⟩ := birdsUpdate_ge_mem _ _ _ _ f1 h3
    refine ⟨f0, hf0, ?_⟩
    rw [if_neg hap, hfe2]
    ring

theorem tick_ok_inv (P : Params) (newH : ℚ) (s s1 : WState)
    (h : tick P newH s = Except.ok s1) :
    s1.ge = (tickBody P newH s).ge ∧ s1.score = (tickBody P newH s).score ∧
      s1.birds = (tickBody P newH s).birds ∧
      s1.networks = (tickBody P newH s).networks ∧
      s1.pipes = (tickBody P newH s).pipes := by
  unfold tick at h
  by_cases h1 : s.birds.isEmpty
  · simp [h1] at h
  · simp only [h1, Bool.false_eq_true, if_false] at h
    by_cases h2 : 150 < (tickBody P newH s).score
    · simp [h2] at h
    · simp only [h2, if_false] at h
      cases h
      exact ⟨rfl, rfl, rfl, rfl, rfl⟩

theorem runTicks_fitness (P : Params) (hs : ℕ → ℚ) :
    ∀ (k : ℕ) (s sk : WState), runTicks P hs k s = some sk →
      s.score ≤ sk.score ∧
      ∀ f1 ∈ sk.ge, ∃ f0 ∈ s.ge,
        f1 = f0 + k * (1/10) + 5 * ((sk.score : ℚ) - (s.score : ℚ)) := by
  intro k
  induction k with
  | zero =>
    intro s sk h
    have hsk : s = sk := by simpa [runTicks] using h
    subst hsk
    exact ⟨le_refl _, fun f1 hf1 => ⟨f1, hf1, by ring⟩⟩
  | succ k ih =>
    intro s sk h
    unfold runTicks at h
    rcases htick : tick P (hs k) s with t | s1
    · rw [htick] at h; simp at h
    · rw [htick] at h
      obtain ⟨hge1, hsc1, _, _, _⟩ := tick_ok_inv P (hs k) s s1 htick
      obtain ⟨hmono, ihf⟩ := ih s1 sk h
      have hscore : s1.score = if (phase2 P s).ap then s.score + 1 else s.score := by
        rw [hsc1, tickBody_score]
      constructor
      · rw [hscore] at hmono
        by_cases hap : (phase2 P s).ap
        · rw [if_pos hap] at hmono; omega
        · rwa [if_neg hap] at hmono
      · intro f1 hf1
        obtain ⟨fm, hfm, hfe⟩ := ihf f1 hf1
        rw [hge1] at hfm
        obtain ⟨f0, hf0, hfe0⟩ := tickBody_ge_mem P (hs k) s fm hfm
        refine ⟨f0, hf0, ?_⟩
        rw [hfe, hfe0, hscore]
        by_cases hap : (phase2 P s).ap <;> simp only [hap, if_true, if_false] <;>
          push_cast <;> ring

theorem tickBody_birds_eq (P : Params) (newH : ℚ) (s : WState) :
    (tickBody P newH s).birds = (groundScan3 (oobChk P.birdH s.ground.y)
      (phase2 P s).birds (phase2 P s).nets
      (if (phase2 P s).ap then (phase2 P s).ge.map (· + 5) else (phase2 P s).ge)).birds := rfl

theorem tickBody_nets_eq (P : Params) (newH : ℚ) (s : WState) :
    (tickBody P newH s).networks = (groundScan3 (oobChk P.birdH s.ground.y)
      (phase2 P s).birds (phase2 P s).nets
      (if (phase2 P s).ap then (phase2 P s).ge.map (· + 5) else (phase2 P s).ge)).nets := rfl

theorem phase2_def (P : Params) (s : WState) :
    phase2 P s = pipesScan P.collide P.pipeW s.pipes (phase1 P s).1 s.networks
      (phase1 P s).2 false := rfl

theorem tickBody_pipes_eq (P : Params) (newH : ℚ) (s : WState) :
    (tickBody P newH s).pipes
      = ((phase2 P s).pipes.filter (fun q => !q.2)).map Prod.fst ++
        (if (phase2 P s).ap then [Pipe.init P.pipeH 600 newH] else []) := rfl

theorem tickBody_len (P : Params) (newH : ℚ) (s : WState)
    (h1 : s.birds.length = s.networks.length) (h2 : s.networks.length = s.ge.length) :
    (tickBody P newH s).birds.length = (tickBody P newH s).networks.length ∧
      (tickBody P newH s).networks.length = (tickBody P newH s).ge.length := by
  obtain ⟨hb1, hb2⟩ := birdsUpdate_len (curPipe P s) s.birds s.networks s.ge h1 h2
  have e1 : (phase1 P s).1.length = s.networks.length := by
    rw [show (phase1 P s).1 = (birdsUpdate (curPipe P s) s.birds s.networks s.ge).1 from rfl,
      hb1, h1]
  have e2 : s.networks.length = (phase1 P s).2.length := by
    rw [show (phase1 P s).2 = (birdsUpdate (curPipe P s) s.birds s.networks s.ge).2 from rfl,
      hb2, ← h2]
  obtain ⟨q1, q2⟩ := pipesScan_len P.collide P.pipeW s.pipes (phase1 P s).1 s.networks
    (phase1 P s).2 false e1 e2
  rw [← phase2_def] at q1 q2
  have q2m : (phase2 P s).nets.length
      = (if (phase2 P s).ap then (phase2 P s).ge.map (· + 5) else (phase2 P s).ge).length := by
    by_cases hap : (phase2 P s).ap <;> simp [hap, q2]
  obtain ⟨m, mb, mn, mg⟩ := groundScan3_mask (oobChk P.birdH s.ground.y)
    (phase2 P s).birds (phase2 P s).nets _ q1 q2m
  constructor
  · rw [tickBody_birds_eq, tickBody_nets_eq, mb, mn]
    exact applyMask_length_eq m _ _ q1
  · rw [tickBody_nets_eq, show (tickBody P newH s).ge = (groundScan3
      (oobChk P.birdH s.ground.y) (phase2 P s).birds (phase2 P s).nets
      (if (phase2 P s).ap then (phase2 P s).ge.map (· + 5) else (phase2 P s).ge)).ge from rfl,
      mn, mg]
    exact applyMask_length_eq m _ _ q2m

theorem WReach_len (P : Params) : ∀ s, WReach P s →
    s.birds.length = s.networks.length ∧ s.networks.length = s.ge.length := by
  intro s hr
  induction hr with
  | init nets h0 => simp [initState]
  | step newH hr ih =>
    obtain ⟨i1, i2⟩ := ih
    have h := tickBody_len P newH _ i1 i2
    simpa [tickStep] using h

theorem tickBody_unpassed (P : Params) (newH : ℚ) (s : WState)
    (hInv : unpassedCount s.pipes ≤ 1) :
    unpassedCount (tickBody P newH s).pipes ≤ 1 := by
  obtain ⟨hlen, hmono, hcount, hap⟩ := pipesScan_flags P.collide P.pipeW s.pipes
    (phase1 P s).1 s.networks (phase1 P s).2 false
  rw [← phase2_def] at hlen hmono hcount hap
  rw [tickBody_pipes_eq, unpassedCount, List.countP_append]
  have hsub : (((phase2 P s).pipes.filter (fun q => !q.2)).map Prod.fst).Sublist
      ((phase2 P s).pipes.map Prod.fst) :=
    ((phase2 P s).pipes.filter_sublist).map Prod.fst
  have hle : List.countP (fun p => !p.passed)
        (((phase2 P s).pipes.filter (fun q => !q.2)).map Prod.fst)
      ≤ List.countP (fun p => !p.passed) ((phase2 P s).pipes.map Prod.fst) :=
    hsub.countP_le _
  have hcount2 : List.countP (fun p => !p.passed) ((phase2 P s).pipes.map Prod.fst)
      + newPassedCount s.pipes ((phase2 P s).pipes.map Prod.fst)
      = unpassedCount s.pipes := hcount
  by_cases hnpc : 0 < newPassedCount s.pipes ((phase2 P s).pipes.map Prod.fst)
  · have hapT : (phase2 P s).ap = true := by rw [hap]; simp [hnpc]
    rw [hapT, if_pos rfl]
    have hone : List.countP (fun p => !p.passed) [Pipe.init P.pipeH 600 newH] = 1 := by
      simp [Pipe.init, Pipe.set_height, List.countP_cons]
    rw [hone]
    omega
  · have hapF : (phase2 P s).ap = false := by rw [hap]; simpa using hnpc
    rw [hapF]
    simp only [Bool.false_eq_true, if_false, List.countP_nil]
    omega

theorem WReach_unpassed (P : Params) : ∀ s, WReach P s → unpassedCount s.pipes ≤ 1 := by
  intro s hr
  induction hr with
  | init nets h0 =>
    simp [initState, unpassedCount, Pipe.init, Pipe.set_height, List.countP_cons]
  | step newH hr ih =>
    have h := tickBody_unpassed P newH _ ih
    simpa [tickStep, unpassedCount] using h

/-- For 0 ≤ v the raw quadratic is nonnegative, so the -2 penalty branch is
dead and the computed displacement is exactly the raw value clamped at 16. -/
theorem displacement_eq_min_of_nonneg (v : ℚ) (hv : 0 ≤ v) (t : ℕ) :
    displacement v t = min (v * t + 3/2 * (t : ℚ) ^ 2) 16 := by
  have hraw : (0 : ℚ) ≤ v * t + 3/2 * (t : ℚ) ^ 2 := by positivity
  unfold displacement
  by_cases h16 : (16 : ℚ) ≤ v * t + 3/2 * (t : ℚ) ^ 2
  · simp only [h16, if_true]
    rw [if_neg (by norm_num), min_eq_right h16]
  · simp only [h16, if_false]
    rw [if_neg (not_lt.mpr hraw), min_eq_left (le_of_lt (not_le.mp h16))]

/-- C6 (counterexample): at the fixed velocity -10.5 (the value every jump
sets), the per-tick displacement strictly decreases from tick count 1 to
tick count 2 although it has not reached the clamp value 16, refuting
monotonicity for arbitrary fixed velocity. -/
theorem displacement_not_monotone_cex :
    displacement (-21/2) 2 < displacement (-21/2) 1 ∧
      displacement (-21/2) 1 < 16 ∧ displacement (-21/2) 2 < 16 := by
  norm_num [displacement]

/-- C6 (amended): for every fixed nonnegative velocity, the per-tick
displacement is monotonically non-decreasing in the tick count, never
exceeds the clamp value 16, and once it reaches 16 it stays at 16. -/
theorem displacement_monotone_of_nonneg (v : ℚ) (hv : 0 ≤ v) :
    Monotone (fun t : ℕ => displacement v t) ∧
      (∀ t : ℕ, displacement v t ≤ 16) ∧
      (∀ t t2 : ℕ, displacement v t = 16 → t ≤ t2 → displacement v t2 = 16) := by
  have hmin := displacement_eq_min_of_nonneg v hv
  have hmono : Monotone (fun t : ℕ => displacement v t) := by
    have : Monotone (fun t : ℕ => v * t + 3/2 * (t : ℚ) ^ 2) := by
      apply monotone_nat_of_le_succ
      intro t
      have ht : (0 : ℚ) ≤ (t : ℚ) := Nat.cast_nonneg t
      push_cast
      nlinarith
    intro a b hab
    simp only [hmin]
    exact min_le_min (this hab) le_rfl
  refine ⟨hmono, fun t => ?_, fun t t2 h16 hle => ?_⟩
  · rw [hmin]; exact min_le_right _ _
  · have h1 : displacement v t ≤ displacement v t2 := hmono hle
    have h2 : displacement v t2 ≤ 16 := by rw [hmin]; exact min_le_right _ _
    rw [h16] at h1
    exact le_antisymm h2 h1

/-- C6 (witness for the amended theorem at v = 0). -/
theorem displacement_monotone_witness :
    (0 : ℚ) ≤ 0 ∧ Monotone (fun t : ℕ => displacement 0 t) :=
  ⟨le_refl 0, (displacement_monotone_of_nonneg 0 (le_refl 0)).1⟩

/-- C7: jump sets the elapsed-ticks counter to 0 and the velocity to exactly
-10.5 = -21/2, whatever the prior bird state. -/
theorem jump_resets_state (b : Bird) :
    (Bird.jump b).tick_count = 0 ∧ (Bird.jump b).velocity = -21/2 :=
  ⟨rfl, rfl⟩

/-- C8: for every pipe and every gap-center height h in the randrange(50, 450)
image, set_height places the bottom edge of the top segment (top + pipeH)
exactly at h and the top edge of the bottom segment exactly GAP = 200 below
it. -/
theorem pipe_gap_exact (pipeH : ℚ) (p : Pipe) (h : ℚ) (h1 : 50 ≤ h) (h2 : h < 450) :
    (Pipe.set_height pipeH p h).bottom - ((Pipe.set_height pipeH p h).top + pipeH)
        = Pipe.GAP ∧
      Pipe.GAP = 200 ∧
      (Pipe.set_height pipeH p h).top + pipeH = h := by
  refine ⟨?_, rfl, ?_⟩ <;> simp [Pipe.set_height, Pipe.GAP]

/-- C8 (witness at pipeH = 100, h = 100). -/
theorem pipe_gap_exact_witness :
    (50 : ℚ) ≤ 100 ∧ (100 : ℚ) < 450 ∧
      (Pipe.set_height 100 (dfltPipe 100) 100).bottom -
        ((Pipe.set_height 100 (dfltPipe 100) 100).top + 100) = Pipe.GAP :=
  ⟨by norm_num, by norm_num,
    (pipe_gap_exact 100 (dfltPipe 100) 100 (by norm_num) (by norm_num)).1⟩

/-- C10: Bird.move leaves x, velocity, height and the animation counter
unchanged (it only rewrites y, tick_count and tilt), and consequently every
reachable bird state has velocity 0 (the initial value) or exactly -10.5
(the value set by the most recent jump). -/
theorem move_frame_and_velocity_values :
    (∀ b : Bird, (Bird.move b).x = b.x ∧ (Bird.move b).velocity = b.velocity ∧
      (Bird.move b).height = b.height ∧ (Bird.move b).image_count = b.image_count) ∧
    (∀ b : Bird, BirdReach b → b.velocity = 0 ∨ b.velocity = -21/2) := by
  constructor
  · intro b; exact ⟨rfl, rfl, rfl, rfl⟩
  · intro b hb
    induction hb with
    | init x y => exact Or.inl rfl
    | move _ ih => exact ih
    | jump _ _ => exact Or.inr rfl

/-- C10 (witness: the velocity dichotomy at the game's start bird). -/
theorem move_frame_witness :
    BirdReach (Bird.init 230 350) ∧
      ((Bird.init 230 350).velocity = 0 ∨ (Bird.init 230 350).velocity = -21/2) :=
  ⟨BirdReach.init 230 350,
    move_frame_and_velocity_values.2 _ (BirdReach.init 230 350)⟩

/-- C1 (counterexample): a concrete state with two adjacent out-of-bounds
agents on which the implementation tick keeps one agent while the reference
snapshot-then-remove tick eliminates both, so the tick step is not
equivalent to the reference step. -/
theorem tick_not_snapshot_equiv_cex :
    (tickBody cxParams 0 cxState).birds.length = 1 ∧
      (refTickBody cxParams 0 cxState).birds.length = 0 := by
  constructor <;>
    norm_num [tickBody, refTickBody, phase2, phase1, birdsUpdate, birdUpdate,
      Bird.move, Bird.jump, displacement, curPipe, pipeIndex, pipesScan,
      collideScan, groundScan3, refPipesScan, refCollideScan, refGroundScan3,
      oobChk, passUpd, Pipe.init, Pipe.set_height, Pipe.move, Bird.init,
      Ground.init, dfltPipe, dfltBird, cxParams, netZero, cxState]

/-- C1 (amended): agent removals during the out-of-bounds pass are applied
in place at the cursor, which skips the agent shifted into each removed
slot; the pass coincides with the reference scan over an immutable snapshot
followed by buffered removal exactly when no two consecutive agents of the
pass are both eliminated. -/
theorem groundScan_snapshot_equiv (p : Bird → Bool) (bs : List Bird)
    (ns : List Net) (fs : List ℚ) (h1 : bs.length = ns.length)
    (h2 : ns.length = fs.length)
    (hc : bs.Chain' (fun a b => ¬(p a = true ∧ p b = true))) :
    groundScan3 p bs ns fs = refGroundScan3 p bs ns fs :=
  groundScan3_eq_ref p bs ns fs h1 h2 hc

/-- C1 (witness for the amended theorem: one out-of-bounds agent followed by
an in-bounds one; no two consecutive eliminations, so the scans agree). -/
theorem groundScan_snapshot_equiv_witness :
    ([Bird.init 230 800, Bird.init 230 100].Chain'
        (fun a b => ¬(oobChk 100 730 a = true ∧ oobChk 100 730 b = true))) ∧
      groundScan3 (oobChk 100 730) [Bird.init 230 800, Bird.init 230 100]
          [netZero, netZero] [0, 0]
        = refGroundScan3 (oobChk 100 730) [Bird.init 230 800, Bird.init 230 100]
          [netZero, netZero] [0, 0] := by
  have hc : ([Bird.init 230 800, Bird.init 230 100].Chain'
      (fun a b => ¬(oobChk 100 730 a = true ∧ oobChk 100 730 b = true))) := by
    refine List.chain'_cons.mpr ⟨?_, List.chain'_singleton _⟩
    norm_num [oobChk, Bird.init]
  exact ⟨hc, groundScan_snapshot_equiv _ _ _ _ rfl rfl hc⟩

/-- C2: over every reachable trial state the three parallel collections have
equal lengths, and both elimination scans remove entries of the three lists
through one shared removal mask, i.e. at identical indices in the same
step. -/
theorem parallel_lists_aligned :
    (∀ (P : Params) (s : WState), WReach P s →
        s.birds.length = s.networks.length ∧ s.networks.length = s.ge.length) ∧
      (∀ (p : Bird → Bool) (bs : List Bird) (ns : List Net) (fs : List ℚ),
        bs.length = ns.length → ns.length = fs.length →
        ∃ m : List Bool,
          (groundScan3 p bs ns fs).birds = applyMask m bs ∧
          (groundScan3 p bs ns fs).nets = applyMask m ns ∧
          (groundScan3 p bs ns fs).ge = applyMask m fs) ∧
      (∀ (coll : Pipe → Bird → Bool) (pipe : Pipe) (bs : List Bird)
        (ns : List Net) (fs : List ℚ) (ps ap : Bool),
        bs.length = ns.length → ns.length = fs.length →
        ∃ m : List Bool,
          (collideScan coll pipe bs ns fs ps ap).1.birds = applyMask m bs ∧
          (collideScan coll pipe bs ns fs ps ap).1.nets = applyMask m ns ∧
          (collideScan coll pipe bs ns fs ps ap).1.ge = applyMask m fs) :=
  ⟨WReach_len, groundScan3_mask, collideScan_mask⟩

/-- C2 (witness: the population-0 initial state, reachable by construction,
and the ground scan mask on concrete singleton lists). -/
theorem parallel_lists_aligned_witness :
    ((initState cxParams [] 200).birds.length
        = (initState cxParams [] 200).networks.length ∧
      (initState cxParams [] 200).networks.length
        = (initState cxParams [] 200).ge.length) ∧
    (∃ m : List Bool,
      (groundScan3 (oobChk 100 730) [Bird.init 230 100] [netZero] [0]).birds
          = applyMask m [Bird.init 230 100] ∧
        (groundScan3 (oobChk 100 730) [Bird.init 230 100] [netZero] [0]).nets
          = applyMask m [netZero] ∧
        (groundScan3 (oobChk 100 730) [Bird.init 230 100] [netZero] [0]).ge
          = applyMask m [0]) :=
  ⟨parallel_lists_aligned.1 cxParams _ (WReach.init [] 200),
    parallel_lists_aligned.2.1 (oobChk 100 730) [Bird.init 230 100] [netZero] [0]
      rfl rfl⟩

/-- C3: over any trial started by the evaluator (all accumulators seeded to
zero) that runs k ticks without breaking, every surviving accumulator holds
exactly k * 0.1 + 5 * p where p is the number of score increments (one per
passed obstacle); and the 0.1 per-tick increment is applied unconditionally,
before and independently of the controller's output. -/
theorem fitness_accounting :
    (∀ (P : Params) (nets : List Net) (h0 : ℚ) (hs : ℕ → ℚ) (k : ℕ)
        (sk : WState),
      runTicks P hs k (initState P nets h0) = some sk →
      ∀ f1 ∈ sk.ge, f1 = k * (1/10) + 5 * (sk.score : ℚ)) ∧
    (∀ (pipe : Pipe) (b : Bird) (n : Net) (f : ℚ),
      (birdUpdate pipe b n f).2 = f + 1/10) := by
  constructor
  · intro P nets h0 hs k sk hrun f1 hf1
    obtain ⟨_, hfit⟩ := runTicks_fitness P hs k _ sk hrun
    obtain ⟨f0, hf0, heq⟩ := hfit f1 hf1
    have hz : f0 = 0 := by
      simp only [initState, List.mem_map] at hf0
      obtain ⟨a, _, ha⟩ := hf0
      exact ha.symm
    have hsc : (((initState P nets h0).score : ℕ) : ℚ) = 0 := by
      simp [initState]
    rw [heq, hz, hsc]
    ring
  · intro pipe b n f
    rfl

/-- C3 (witness: one genome with the never-jump controller, one full tick;
its accumulator reads exactly 0.1 = 1 * 0.1 + 5 * 0). -/
theorem fitness_accounting_witness :
    runTicks cxParams (fun _ => 200) 1 (initState cxParams [netZero] 200)
        = some c3final ∧
      (1:ℚ)/10 ∈ c3final.ge ∧
      (1:ℚ)/10 = 1 * (1/10) + 5 * (c3final.score : ℚ) := by
  have hrun : runTicks cxParams (fun _ => 200) 1 (initState cxParams [netZero] 200)
      = some c3final := by
    norm_num [runTicks, tick, tickBody, phase2, phase1, birdsUpdate, birdUpdate,
      Bird.move, Bird.jump, displacement, curPipe, pipeIndex, pipesScan,
      collideScan, groundScan3, oobChk, passUpd, Pipe.init, Pipe.set_height,
      Pipe.move, Bird.init, Ground.init, Ground.move, dfltPipe, dfltBird,
      initState, cxParams, netZero, c3final, Bird.MAX_ROTATION,
      Bird.ROTATION_VELOCITY, Pipe.GAP, Pipe.VELOCITY, Ground.VELOCITY]
  refine ⟨hrun, by norm_num [c3final], ?_⟩
  exact fitness_accounting.1 cxParams [netZero] 200 (fun _ => 200) 1 c3final hrun
    (1/10) (by norm_num [c3final])

/-- C4: on every reachable state, each pipe's passed flag is monotone under
the tick (so it is set at most once over the trial), at most one pipe is
newly passed per tick, the shared score increases by exactly the number of
newly passed pipes (independently of how many agents passed it), and when
exactly one pipe is passed every accumulator that survived the collision
scans receives the +5 bonus exactly once before the out-of-bounds scan. -/
theorem pass_events_once (P : Params) (s : WState) (hr : WReach P s) (newH : ℚ) :
    (∀ pr ∈ s.pipes.zip ((phase2 P s).pipes.map Prod.fst),
        ∃ c : Bool, pr.2.passed = (pr.1.passed || c)) ∧
    newPassedCount s.pipes ((phase2 P s).pipes.map Prod.fst) ≤ 1 ∧
    (tickBody P newH s).score
      = s.score + newPassedCount s.pipes ((phase2 P s).pipes.map Prod.fst) ∧
    ((phase2 P s).ap = true ↔
      newPassedCount s.pipes ((phase2 P s).pipes.map Prod.fst) = 1) ∧
    (tickBody P newH s).ge = (groundScan3 (oobChk P.birdH s.ground.y)
      (phase2 P s).birds (phase2 P s).nets
      (if newPassedCount s.pipes ((phase2 P s).pipes.map Prod.fst) = 1
        then (phase2 P s).ge.map (· + 5) else (phase2 P s).ge)).ge := by
  obtain ⟨hlen, hmono, hcount, hap⟩ := pipesScan_flags P.collide P.pipeW s.pipes
    (phase1 P s).1 s.networks (phase1 P s).2 false
  rw [← phase2_def] at hlen hmono hcount hap
  have hInv := WReach_unpassed P s hr
  have hnpcle : newPassedCount s.pipes ((phase2 P s).pipes.map Prod.fst) ≤ 1 := by
    omega
  have hapIff : (phase2 P s).ap = true ↔
      newPassedCount s.pipes ((phase2 P s).pipes.map Prod.fst) = 1 := by
    rw [hap]
    constructor
    · intro h
      simp only [Bool.false_or, decide_eq_true_eq] at h
      omega
    · intro h
      simp [h]
  refine ⟨hmono, hnpcle, ?_, hapIff, ?_⟩
  · rw [tickBody_score]
    by_cases hone : newPassedCount s.pipes ((phase2 P s).pipes.map Prod.fst) = 1
    · rw [if_pos (hapIff.mpr hone), hone]
    · have hzero : newPassedCount s.pipes ((phase2 P s).pipes.map Prod.fst) = 0 := by
        omega
      have hapF : ¬((phase2 P s).ap = true) := fun h => hone (hapIff.mp h)
      rw [if_neg hapF, hzero]
      omega
  · rw [tickBody_ge_eq]
    by_cases hone : newPassedCount s.pipes ((phase2 P s).pipes.map Prod.fst) = 1
    · rw [if_pos (hapIff.mpr hone), if_pos hone]
    · have hapF : ¬((phase2 P s).ap = true) := fun h => hone (hapIff.mp h)
      rw [if_neg hapF, if_neg hone]

/-- C4 (witness: the initial population-0 state; no pipe is newly passed and
the score increment equals that count, 0). -/
theorem pass_events_once_witness :
    (tickBody cxParams 0 (initState cxParams [] 200)).score
      = (initState cxParams [] 200).score
        + newPassedCount (initState cxParams [] 200).pipes
          ((phase2 cxParams (initState cxParams [] 200)).pipes.map Prod.fst) :=
  (pass_events_once cxParams _ (WReach.init [] 200) 0).2.2.1

/-- C5: a loop iteration exits exactly when no live agents remain (checked
at the top, before any per-agent work, returning the state untouched) or
the updated score exceeds the cap 150 (checked at the bottom); with agents
and score at most 150 it always continues. -/
theorem trial_termination (P : Params) (newH : ℚ) (s : WState) :
    ((∃ t, tick P newH s = Except.error t) ↔
      (s.birds = [] ∨ 150 < (tickBody P newH s).score)) ∧
    (s.birds = [] → tick P newH s = Except.error s) ∧
    (s.birds ≠ [] → 150 < (tickBody P newH s).score →
      tick P newH s = Except.error (tickBody P newH s)) ∧
    (s.birds ≠ [] → (tickBody P newH s).score ≤ 150 →
      tick P newH s = Except.ok { tickBody P newH s with
        ground := Ground.move P.groundW (tickBody P newH s).ground }) := by
  have hiff : s.birds.isEmpty = true ↔ s.birds = [] := by
    cases s.birds <;> simp
  by_cases hb : s.birds = []
  · have hbe : s.birds.isEmpty = true := hiff.mpr hb
    refine ⟨⟨fun _ => Or.inl hb, fun _ => ⟨s, by simp [tick, hbe]⟩⟩,
      fun _ => by simp [tick, hbe], fun hne => (hne hb).elim,
      fun hne => (hne hb).elim⟩
  · have hbe : s.birds.isEmpty = false := by
      cases hx : s.birds.isEmpty
      · rfl
      · exact (hb (hiff.mp hx)).elim
    by_cases hsc : 150 < (tickBody P newH s).score
    · refine ⟨⟨fun _ => Or.inr hsc, fun _ => ⟨tickBody P newH s, ?_⟩⟩,
        fun h => (hb h).elim, fun _ _ => ?_,
        fun _ hle => absurd hsc (not_lt.mpr hle)⟩ <;>
        simp [tick, hbe, hsc]
    · refine ⟨⟨?_, ?_⟩, fun h => (hb h).elim, fun _ h2 => (hsc h2).elim,
        fun _ _ => ?_⟩
      · rintro ⟨t, ht⟩
        simp [tick, hbe, hsc] at ht
      · rintro (h | h)
        · exact (hb h).elim
        · exact (hsc h).elim
      · simp [tick, hbe, hsc]

/-- C5 (witness: a trial state with zero live agents exits immediately with
the state unchanged, so no per-agent tick work happens). -/
theorem trial_termination_witness :
    (initState cxParams [] 200).birds = [] ∧
      tick cxParams 0 (initState cxParams [] 200)
        = Except.error (initState cxParams [] 200) :=
  ⟨rfl, (trial_termination cxParams 0 (initState cxParams [] 200)).2.1 rfl⟩

/-- C9: the out-of-bounds test itself matches the claim (lower edge
y + height at or below the ground line, or y < 0), but the in-place pop
scan fails to eliminate every agent satisfying it: with two adjacent
out-of-bounds agents, the second survives the pass that the reference
snapshot scan (and the claim) eliminates. -/
theorem ground_check_skips_second_oob :
    oobChk 100 730 (Bird.init 230 800) = true ∧
      (groundScan3 (oobChk 100 730) [Bird.init 230 800, Bird.init 230 800]
          [netZero, netZero] [0, 0]).birds = [Bird.init 230 800] ∧
      (refGroundScan3 (oobChk 100 730) [Bird.init 230 800, Bird.init 230 800]
          [netZero, netZero] [0, 0]).birds = [] := by
  refine ⟨?_, ?_, ?_⟩ <;>
    norm_num [oobChk, groundScan3, refGroundScan3, Bird.init]

end FlappyBird
